import Mathlib

/-!
Shallow embedding of the three-body simulation (`src/main.rs`) and proofs
about the claims of its specification.

The Rust program simulates three point masses under pairwise inverse-square
gravity, with toroidal wrapping of both displacements and positions, fading
trails stored in a front-evicted deque, and two collision policies (halting
and elastic).  Machine floats (`f32`) are modelled as real numbers; the
control flow, list processing and arithmetic expressions are translated
directly from the source.  Fallible operations (Rust `Option::unwrap`, which
panics on `None`) are modelled by `Option`-returning functions where `none`
marks the panic.
-/

set_option maxHeartbeats 1000000

namespace ThreeBodies

/-- Planar vector over the reals, modelling macroquad's `Vec2`. -/
@[ext]
structure Vec2 where
  x : ℝ
  y : ℝ

instance : Add Vec2 := ⟨fun a b => ⟨a.x + b.x, a.y + b.y⟩⟩

instance : Sub Vec2 := ⟨fun a b => ⟨a.x - b.x, a.y - b.y⟩⟩

instance : Zero Vec2 := ⟨⟨0, 0⟩⟩

noncomputable instance : SMul ℝ Vec2 := ⟨fun c v => ⟨c * v.x, c * v.y⟩⟩

noncomputable instance : HDiv Vec2 ℝ Vec2 := ⟨fun v c => ⟨v.x / c, v.y / c⟩⟩

@[simp] theorem Vec2.add_x (a b : Vec2) : (a + b).x = a.x + b.x := rfl

@[simp] theorem Vec2.add_y (a b : Vec2) : (a + b).y = a.y + b.y := rfl

@[simp] theorem Vec2.sub_x (a b : Vec2) : (a - b).x = a.x - b.x := rfl

@[simp] theorem Vec2.sub_y (a b : Vec2) : (a - b).y = a.y - b.y := rfl

@[simp] theorem Vec2.zero_x : (0 : Vec2).x = 0 := rfl

@[simp] theorem Vec2.zero_y : (0 : Vec2).y = 0 := rfl

@[simp] theorem Vec2.smul_x (c : ℝ) (v : Vec2) : (c • v).x = c * v.x := rfl

@[simp] theorem Vec2.smul_y (c : ℝ) (v : Vec2) : (c • v).y = c * v.y := rfl

@[simp] theorem Vec2.div_x (v : Vec2) (c : ℝ) : (v / c).x = v.x / c := rfl

@[simp] theorem Vec2.div_y (v : Vec2) (c : ℝ) : (v / c).y = v.y / c := rfl

@[simp] theorem Vec2.zero_add (v : Vec2) : (0 : Vec2) + v = v := by
  ext <;> simp

@[simp] theorem Vec2.add_zero (v : Vec2) : v + (0 : Vec2) = v := by
  ext <;> simp

/-- Euclidean length, as glam computes it: `sqrt (x*x + y*y)`. -/
noncomputable def Vec2.length (v : Vec2) : ℝ := Real.sqrt (v.x * v.x + v.y * v.y)

/-- Componentwise division by the length, as glam's `normalize`. -/
noncomputable def Vec2.normalize (v : Vec2) : Vec2 := ⟨v.x / v.length, v.y / v.length⟩

/-- Distance between two points: length of the difference, as glam's `distance`. -/
noncomputable def Vec2.distance (a b : Vec2) : ℝ := (a - b).length

/-- RGBA colour; only the alpha channel matters for the claims. -/
@[ext]
structure Color where
  r : ℝ
  g : ℝ
  b : ℝ
  a : ℝ

/-- A body in the simulation (`struct Body` in the source). -/
@[ext]
structure Body where
  id : ℕ
  colour : Color
  position : Vec2
  velocity : Vec2
  mass : ℝ

/-- A trail sample left behind by a body (`struct Trail`). -/
@[ext]
structure Trail where
  position : Vec2
  colour : Color

/-- Rust's `f32::signum` restricted to non-NaN inputs: `1` for non-negative
(including `+0.0`), `-1` for negative. -/
noncomputable def signum (d : ℝ) : ℝ := if 0 ≤ d then 1 else -1

/-- One axis of the torus-wrapping of a displacement, from the body of
`Body::update_velocity`: if the separation exceeds half the extent, take the
path around the other side. -/
noncomputable def wrapAxis (d extent : ℝ) : ℝ :=
  if |d| > extent / 2 then d - signum d * extent else d

/-- The per-other-body term of the gravity fold in `Body::update_velocity`:
wrapped displacement, its length and direction, inverse-square force. -/
noncomputable def pairAccel (self other : Body) (W H : ℝ) : Vec2 :=
  let delta : Vec2 := ⟨wrapAxis (other.position.x - self.position.x) W,
                       wrapAxis (other.position.y - self.position.y) H⟩
  let dist := delta.length
  let direction := delta.normalize
  let force := (self.mass * other.mass) / (dist * dist)
  force • direction

/-- The collision predicate `Body::collides_with`:
distance at most the sum of the masses (mass doubles as radius). -/
noncomputable def Body.collides_with (self other : Body) : Bool :=
  decide (self.position.distance other.position ≤ self.mass + other.mass)

/-- The elastic-collision velocity for `self` against `other`, the `v1_prime`
expression in `Body::update_velocity`. -/
noncomputable def elasticVelocity (self other : Body) : Vec2 :=
  ((self.mass - other.mass) / (self.mass + other.mass)) • self.velocity +
    ((2 * other.mass) / (self.mass + other.mass)) • other.velocity

/-- The bodies of the snapshot other than `self`
(the `filter(|&body| body.id != self.id)` step). -/
def othersOf (self : Body) (bodies : List Body) : List Body :=
  bodies.filter (fun b => decide (b.id ≠ self.id))

/-- The other bodies currently overlapping `self`
(the second filter of the elastic branch). -/
noncomputable def colliders (self : Body) (bodies : List Body) : List Body :=
  (othersOf self bodies).filter (fun o => self.collides_with o)

/-- Rust's `Iterator::reduce`: `none` on the empty sequence, otherwise a left
fold started from the first element. -/
def reduce (f : α → α → α) : List α → Option α
  | [] => none
  | x :: xs => some (xs.foldl f x)

/-- `Body::update_velocity`, translated directly.  In elastic mode the
velocity is replaced by the reduced sum of per-overlap elastic velocities and
the function returns early; if that reduction is empty (`unwrap_or_else`
resetting `collided`), or in halting mode, the gravity fold runs instead.
The final `unwrap` of the gravity reduction is modelled by `Option`: `none`
is the panic on an empty reduction. -/
noncomputable def Body.update_velocity (self : Body) (bodies : List Body)
    (elastic_collisions : Bool) (W H : ℝ) : Option Body :=
  let elasticResult : Option Vec2 :=
    if elastic_collisions then
      reduce (· + ·) ((colliders self bodies).map (fun other => elasticVelocity self other))
    else none
  match elasticResult with
  | some v => some { self with velocity := v }
  | none =>
      (reduce (· + ·) ((othersOf self bodies).map (fun other => pairAccel self other W H))).map
        (fun force : Vec2 =>
          { self with velocity := self.velocity + ((9.81 : ℝ) • force) / self.mass })

/-- `Body::update_position`: Euler step followed by single-step wrap at the
viewport edges. -/
noncomputable def Body.update_position (self : Body) (W H : ℝ) : Body :=
  let p := self.position + self.velocity
  let px := if p.x > W then p.x - W else if p.x < 0 then p.x + W else p.x
  let py := if p.y > H then p.y - H else if p.y < 0 then p.y + H else p.y
  { self with position := ⟨px, py⟩ }

/-- The `has_collision` helper: some unordered pair of distinct indices
collides. -/
noncomputable def has_collision : List Body → Bool
  | [] => false
  | b :: rest => rest.any (fun o => b.collides_with o) || has_collision rest

/-- `Trail::from(&Body)`: capture position and colour. -/
def Trail.ofBody (body : Body) : Trail := { position := body.position, colour := body.colour }

/-- One step of trail decay: alpha is multiplied by `0.995`. -/
noncomputable def decayTrail (t : Trail) : Trail :=
  { t with colour := { t.colour with a := t.colour.a * 0.995 } }

/-- The front-eviction loop: pop from the front while the front sample's
alpha is below `0.01`. -/
noncomputable def evictTrails (trails : List Trail) : List Trail :=
  trails.dropWhile (fun t => decide (t.colour.a < 0.01))

/-- The whole per-frame trail update from the main loop: decay every sample,
append one sample per body at the back, then evict from the front. -/
noncomputable def trailStep (trails : List Trail) (bodies : List Body) : List Trail :=
  evictTrails (trails.map decayTrail ++ bodies.map Trail.ofBody)

/-- Effectful map over a list in the `Option` monad, modelling a `for_each`
loop whose body may panic: the first `none` aborts the whole traversal. -/
def mapOption (f : α → Option β) : List α → Option (List β)
  | [] => some []
  | x :: xs =>
    match f x with
    | none => none
    | some y => (mapOption f xs).map (fun ys => y :: ys)

/-- The velocity phase of one step: every body's velocity is updated from the
same snapshot `bodies` of the previous frame. -/
noncomputable def stepPhysics (bodies : List Body) (elastic : Bool) (W H : ℝ) :
    Option (List Body) :=
  mapOption (fun b => b.update_velocity bodies elastic W H) bodies

/-- The mutable state of the main loop. -/
@[ext]
structure SimState where
  bodies : List Body
  trails : List Trail
  running : Bool
  auto_restart : Bool
  elastic_collisions : Bool

/-- The `if running` block of the main loop, in source order: velocities from
the snapshot, then trail decay/append/evict, then position integration, then
the halting-mode collision test. -/
noncomputable def stepSim (s : SimState) (W H : ℝ) : Option SimState :=
  if s.running then
    match stepPhysics s.bodies s.elastic_collisions W H with
    | none => none
    | some newBodies =>
      let trails' := trailStep s.trails newBodies
      let finalBodies := newBodies.map (fun b => b.update_position W H)
      let running' := if s.elastic_collisions then s.running else !has_collision finalBodies
      some { s with bodies := finalBodies, trails := trails', running := running' }
  else some s

/-- The discrete per-frame input events the loop reacts to.  `reset` is the
space-key/mouse event. -/
structure Inputs where
  reset : Bool
  toggle_auto_restart : Bool
  toggle_elastic : Bool

/-- One full iteration of the main loop (drawing aside, which does not touch
this state): reset handling (explicit, or automatic when stopped with
auto-restart on), flag toggles, then the physics step.  `fresh` stands for
the three freshly randomised bodies a reset installs. -/
noncomputable def frame (s : SimState) (inp : Inputs) (fresh : List Body) (W H : ℝ) :
    Option SimState :=
  let s1 := if inp.reset || (!s.running && s.auto_restart)
    then { s with bodies := fresh, trails := [], running := true } else s
  let s2 := { s1 with
    auto_restart := if inp.toggle_auto_restart then !s1.auto_restart else s1.auto_restart,
    elastic_collisions :=
      if inp.toggle_elastic then !s1.elastic_collisions else s1.elastic_collisions }
  stepSim s2 W H

/-! Concrete values used to exercise the definitions. -/

/-- An opaque-white colour at full alpha, as used by freshly created bodies. -/
def whiteCol : Color := ⟨1, 1, 1, 1⟩

/-- A unit-mass body at `(10, 10)`, at rest. -/
def bodyP : Body := ⟨0, whiteCol, ⟨10, 10⟩, ⟨0, 0⟩, 1⟩

/-- A unit-mass body at `(20, 10)`, at rest. -/
def bodyQ : Body := ⟨1, whiteCol, ⟨20, 10⟩, ⟨0, 0⟩, 1⟩

/-- A body far outside a `100 × 100` viewport, at rest. -/
def bodyOut : Body := ⟨0, whiteCol, ⟨150, 50⟩, ⟨0, 0⟩, 1⟩

/-- A body inside a `100 × 100` viewport, at rest. -/
def bodyIn : Body := ⟨0, whiteCol, ⟨5, 5⟩, ⟨0, 0⟩, 1⟩

/-- Two bodies on a head-on collision course (distance 1, radii sum 2). -/
def bodyE1 : Body := ⟨0, whiteCol, ⟨0, 0⟩, ⟨1, 0⟩, 1⟩

/-- The partner of `bodyE1`, moving the opposite way. -/
def bodyE2 : Body := ⟨1, whiteCol, ⟨1, 0⟩, ⟨-1, 0⟩, 1⟩

/-- A body of mass 2 at the origin. -/
def bodyT1 : Body := ⟨0, whiteCol, ⟨0, 0⟩, ⟨0, 0⟩, 2⟩

/-- A body of mass 3 at distance exactly 5 from `bodyT1`. -/
def bodyT2 : Body := ⟨1, whiteCol, ⟨5, 0⟩, ⟨0, 0⟩, 3⟩

/-- A unit-mass body at the origin, for the far-pair example. -/
def bodyCA : Body := ⟨0, whiteCol, ⟨0, 0⟩, ⟨0, 0⟩, 1⟩

/-- A unit-mass body 90 units away on the x-axis, beyond half a `100`-wide
viewport. -/
def bodyCB : Body := ⟨1, whiteCol, ⟨90, 0⟩, ⟨0, 0⟩, 1⟩

/-- A running two-body state with no trails, in halting mode. -/
def simC3 : SimState := ⟨[bodyP, bodyQ], [], true, false, false⟩

/-- A stopped one-body state with auto-restart off. -/
def simStop : SimState := ⟨[bodyP], [], false, false, false⟩

/-- A stopped one-body state with auto-restart on. -/
def simStopAR : SimState := ⟨[bodyP], [], false, true, false⟩

/-- A frame with no input events. -/
def inpNone : Inputs := ⟨false, false, false⟩

/-- `bodyP` after its gravity velocity update against `bodyQ`. -/
noncomputable def bodyPv : Body := ⟨0, whiteCol, ⟨10, 10⟩, ⟨981 / 10000, 0⟩, 1⟩

/-- `bodyQ` after its gravity velocity update against `bodyP`. -/
noncomputable def bodyQv : Body := ⟨1, whiteCol, ⟨20, 10⟩, ⟨-(981 / 10000), 0⟩, 1⟩

/-! Helper lemmas. -/

theorem sqrt_eval {a b : ℝ} (hb : 0 ≤ b) (h : b * b = a) : Real.sqrt a = b := by
  rw [← h]
  exact Real.sqrt_mul_self hb

theorem wrapAxis_of_le {d e : ℝ} (h : |d| ≤ e / 2) : wrapAxis d e = d := by
  unfold wrapAxis
  rw [if_neg (not_lt.2 h)]

theorem reduce_eq_none {α : Type} {f : α → α → α} {l : List α} :
    reduce f l = none ↔ l = [] := by
  cases l <;> simp [reduce]

theorem reduce_add {l : List Vec2} (h : l ≠ []) :
    reduce (· + ·) l = some (l.foldl (· + ·) 0) := by
  cases l with
  | nil => exact absurd rfl h
  | cons x xs => simp [reduce]

theorem update_velocity_gravity (self : Body) (bodies : List Body) (W H : ℝ) :
    self.update_velocity bodies false W H =
      (reduce (· + ·) ((othersOf self bodies).map (fun other => pairAccel self other W H))).map
        (fun force : Vec2 =>
          { self with velocity := self.velocity + ((9.81 : ℝ) • force) / self.mass }) := by
  simp [Body.update_velocity]

theorem update_velocity_elastic_hit (self : Body) (bodies : List Body) (W H : ℝ)
    (h : colliders self bodies ≠ []) :
    self.update_velocity bodies true W H =
      some { self with velocity :=
        ((colliders self bodies).map (fun o => elasticVelocity self o)).foldl (· + ·) 0 } := by
  have hm : (colliders self bodies).map (fun o => elasticVelocity self o) ≠ [] := by
    simpa using h
  simp [Body.update_velocity, reduce_add hm]

theorem update_position_eq (self : Body) (W H : ℝ) :
    self.update_position W H =
      { self with position :=
        ⟨if self.position.x + self.velocity.x > W then self.position.x + self.velocity.x - W
          else if self.position.x + self.velocity.x < 0 then self.position.x + self.velocity.x + W
          else self.position.x + self.velocity.x,
         if self.position.y + self.velocity.y > H then self.position.y + self.velocity.y - H
          else if self.position.y + self.velocity.y < 0 then self.position.y + self.velocity.y + H
          else self.position.y + self.velocity.y⟩ } := rfl

theorem update_velocity_elastic_miss (self : Body) (bodies : List Body) (W H : ℝ)
    (h : colliders self bodies = []) :
    self.update_velocity bodies true W H = self.update_velocity bodies false W H := by
  simp [Body.update_velocity, h, reduce]

/-! Claim theorems. -/

/-- C4: two bodies collide exactly when the distance between their positions
is at most the sum of their radii (each radius being the mass); in
particular a pair at distance exactly the radius sum is classified as
colliding. -/
theorem c4_collision_inclusive (a b : Body) :
    (a.collides_with b = true ↔ a.position.distance b.position ≤ a.mass + b.mass) ∧
    (a.position.distance b.position = a.mass + b.mass → a.collides_with b = true) := by
  constructor
  · simp [Body.collides_with]
  · intro h
    simp [Body.collides_with, h]

/-- C4 witness: bodies of masses 2 and 3 at distance exactly 5 collide. -/
theorem c4_witness : bodyT1.collides_with bodyT2 = true := by
  refine (c4_collision_inclusive bodyT1 bodyT2).2 ?_
  show Vec2.distance _ _ = _
  simp only [bodyT1, bodyT2, Vec2.distance, Vec2.length, Vec2.sub_x, Vec2.sub_y]
  rw [show ((0 : ℝ) - 5) * ((0 : ℝ) - 5) + ((0 : ℝ) - 0) * ((0 : ℝ) - 0) = 5 * 5 by norm_num]
  rw [sqrt_eval (by norm_num) rfl]
  norm_num

/-- C6 (amended): on each axis, if the separation is at most half the
viewport extent the wrapped displacement equals the raw one; if it exceeds
half the extent and — as the counterexample forces us to add — is smaller
than the full extent, the wrapped displacement has the opposite sign and
strictly smaller magnitude. -/
theorem c6_wrapped_axis :
    (∀ d e : ℝ, |d| ≤ e / 2 → wrapAxis d e = d) ∧
    (∀ d e : ℝ, e / 2 < |d| → |d| < e → wrapAxis d e * d < 0 ∧ |wrapAxis d e| < |d|) := by
  constructor
  · intro d e h
    exact wrapAxis_of_le h
  · intro d e h1 h2
    have he : 0 < e := by
      have := lt_trans h1 h2
      linarith
    have hwrap : wrapAxis d e = d - signum d * e := by
      unfold wrapAxis
      rw [if_pos h1]
    rcases le_or_lt 0 d with hd | hd
    · rw [abs_of_nonneg hd] at h1 h2
      have hd0 : 0 < d := lt_of_le_of_lt (by linarith) h1
      have hs : signum d = 1 := by
        unfold signum
        rw [if_pos hd]
      rw [hwrap, hs]
      constructor
      · exact mul_neg_of_neg_of_pos (by linarith) hd0
      · rw [abs_of_nonneg hd, abs_of_neg (by linarith : d - 1 * e < 0)]
        linarith
    · rw [abs_of_neg hd] at h1 h2
      have hs : signum d = -1 := by
        unfold signum
        rw [if_neg (not_le.2 hd)]
      rw [hwrap, hs]
      constructor
      · exact mul_neg_of_pos_of_neg (by linarith) hd
      · rw [abs_of_neg hd, abs_of_nonneg (by linarith : (0 : ℝ) ≤ d - -1 * e)]
        linarith

/-- C6 witness: at extent 100, a separation of 30 is unchanged, and a
separation of 60 wraps to the opposite sign with smaller magnitude. -/
theorem c6_witness :
    wrapAxis 30 100 = 30 ∧ (wrapAxis 60 100 * 60 < 0 ∧ |wrapAxis 60 100| < |(60 : ℝ)|) :=
  ⟨c6_wrapped_axis.1 30 100 (by rw [abs_of_nonneg] <;> norm_num),
   c6_wrapped_axis.2 60 100 (by rw [abs_of_nonneg] <;> norm_num)
     (by rw [abs_of_nonneg] <;> norm_num)⟩

/-- C6 counterexample: at extent 100 a separation of 150 exceeds half the
extent, yet its wrapped value is 50 — the same sign as the raw displacement,
refuting the opposite-sign part of the claim as stated. -/
theorem c6_counterexample :
    (100 : ℝ) / 2 < |(150 : ℝ)| ∧ wrapAxis 150 100 = 50 ∧ ¬(wrapAxis 150 100 * 150 < 0) := by
  have habs : |(150 : ℝ)| = 150 := by
    rw [abs_of_nonneg] <;> norm_num
  have h : wrapAxis (150 : ℝ) 100 = 50 := by
    unfold wrapAxis signum
    rw [if_pos (by rw [habs]; norm_num), if_pos (by norm_num : (0 : ℝ) ≤ 150)]
    norm_num
  refine ⟨by rw [habs]; norm_num, h, ?_⟩
  rw [h]
  norm_num

/-- C9 (amended): a body with zero velocity whose position lies inside the
viewport (as the counterexample forces us to require) is left unchanged by
any number of position updates. -/
theorem c9_zero_velocity_fixed (b : Body) (W H : ℝ) (n : ℕ)
    (hv : b.velocity = (⟨0, 0⟩ : Vec2))
    (hx0 : 0 ≤ b.position.x) (hxW : b.position.x ≤ W)
    (hy0 : 0 ≤ b.position.y) (hyH : b.position.y ≤ H) :
    (fun bd : Body => bd.update_position W H)^[n] b = b := by
  have hvx : b.velocity.x = 0 := by rw [hv]
  have hvy : b.velocity.y = 0 := by rw [hv]
  have hfix : b.update_position W H = b := by
    rw [update_position_eq, hvx, hvy]
    simp only [add_zero]
    rw [if_neg (not_lt.2 hxW), if_neg (not_lt.2 hx0), if_neg (not_lt.2 hyH),
      if_neg (not_lt.2 hy0)]
  exact Function.iterate_fixed hfix n

/-- C9 witness: a resting in-viewport body is unmoved by three updates. -/
theorem c9_witness : (fun bd : Body => bd.update_position 100 100)^[3] bodyIn = bodyIn :=
  c9_zero_velocity_fixed bodyIn 100 100 3 rfl (by norm_num [bodyIn]) (by norm_num [bodyIn])
    (by norm_num [bodyIn]) (by norm_num [bodyIn])

/-- C9 counterexample: a resting body at `x = 150` in a 100-wide viewport is
moved to `x = 50` by one position update, so the claim fails without an
in-viewport hypothesis. -/
theorem c9_counterexample :
    bodyOut.velocity = (⟨0, 0⟩ : Vec2) ∧
      (fun bd : Body => bd.update_position 100 100)^[1] bodyOut ≠ bodyOut := by
  refine ⟨rfl, ?_⟩
  rw [Function.iterate_one]
  intro h
  have hx := congrArg (fun bd : Body => bd.position.x) h
  simp only [Body.update_position, bodyOut, Vec2.add_x, Vec2.add_y] at hx
  norm_num at hx

/-- C2: in elastic mode a body overlapping at least one other has its
velocity replaced by the additive combination of the per-pair elastic
velocities `v1' = ((m1-m2)/(m1+m2))*v1 + (2*m2/(m1+m2))*v2` over all
overlapping others, skipping gravity entirely; with no overlap the update
falls through to the gravity-based update. -/
theorem c2_elastic_collision (self : Body) (bodies : List Body) (W H : ℝ) :
    (colliders self bodies ≠ [] →
      self.update_velocity bodies true W H =
        some { self with velocity :=
          ((colliders self bodies).map (fun o => elasticVelocity self o)).foldl (· + ·) 0 }) ∧
    (colliders self bodies = [] →
      self.update_velocity bodies true W H = self.update_velocity bodies false W H) :=
  ⟨fun h => update_velocity_elastic_hit self bodies W H h,
   fun h => update_velocity_elastic_miss self bodies W H h⟩

theorem distance_E1E2 : Vec2.distance (⟨0, 0⟩ : Vec2) ⟨1, 0⟩ = 1 := by
  simp only [Vec2.distance, Vec2.length, Vec2.sub_x, Vec2.sub_y]
  rw [show ((0 : ℝ) - 1) * ((0 : ℝ) - 1) + ((0 : ℝ) - 0) * ((0 : ℝ) - 0) = 1 * 1 by norm_num]
  exact sqrt_eval (by norm_num) rfl

theorem colliders_E : colliders bodyE1 [bodyE1, bodyE2] = [bodyE2] := by
  have hcoll : bodyE1.collides_with bodyE2 = true := by
    simp only [Body.collides_with, bodyE1, bodyE2, decide_eq_true_eq, distance_E1E2]
    norm_num
  simp only [bodyE1, bodyE2] at hcoll
  simp [colliders, othersOf, bodyE1, bodyE2, List.filter, hcoll]

/-- C2 witness: for two overlapping bodies the elastic update replaces the
velocity by the summed elastic formula. -/
theorem c2_witness :
    bodyE1.update_velocity [bodyE1, bodyE2] true 100 100 =
      some { bodyE1 with velocity :=
        ((colliders bodyE1 [bodyE1, bodyE2]).map
            (fun o => elasticVelocity bodyE1 o)).foldl (· + ·) 0 } :=
  (c2_elastic_collision bodyE1 [bodyE1, bodyE2] 100 100).1
    (by rw [colliders_E]; exact List.cons_ne_nil _ _)

/-- C8: the velocity update aborts (the final `unwrap` panics) exactly when
the snapshot holds no body with a different id; with at least one other
body the gravity reduction is non-empty and the update succeeds. -/
theorem c8_requires_two_bodies (self : Body) (bodies : List Body) (elastic : Bool) (W H : ℝ) :
    (othersOf self bodies = [] → self.update_velocity bodies elastic W H = none) ∧
    (othersOf self bodies ≠ [] → (self.update_velocity bodies elastic W H).isSome = true) := by
  constructor
  · intro h
    have hcol : colliders self bodies = [] := by simp [colliders, h]
    cases elastic with
    | false =>
      rw [update_velocity_gravity]
      simp [h, reduce]
    | true =>
      rw [update_velocity_elastic_miss self bodies W H hcol, update_velocity_gravity]
      simp [h, reduce]
  · intro h
    have hmap : (othersOf self bodies).map (fun o => pairAccel self o W H) ≠ [] := by
      simpa using h
    cases elastic with
    | false =>
      rw [update_velocity_gravity, reduce_add hmap]
      simp
    | true =>
      by_cases hcol : colliders self bodies = []
      · rw [update_velocity_elastic_miss self bodies W H hcol, update_velocity_gravity,
          reduce_add hmap]
        simp
      · rw [update_velocity_elastic_hit self bodies W H hcol]
        simp

/-- C8 witness: with a lone body the update aborts; with a second, distinct
body it succeeds. -/
theorem c8_witness :
    bodyP.update_velocity [bodyP] false 100 100 = none ∧
      (bodyP.update_velocity [bodyP, bodyQ] false 100 100).isSome = true :=
  ⟨(c8_requires_two_bodies bodyP [bodyP] false 100 100).1 (by simp [othersOf, bodyP]),
   (c8_requires_two_bodies bodyP [bodyP, bodyQ] false 100 100).2
     (by simp [othersOf, bodyP, bodyQ])⟩

/-- C1 (amended): for distinct bodies whose per-axis separations are at most
half the viewport extents (as the counterexample forces us to require; the
code always applies torus wrapping to the displacement) and with nonzero
separation, the per-pair gravity increment points along the normalized
displacement from A to B with magnitude `mass_A*mass_B/distance^2`, and the
whole increment added to the velocity is `9.81` times the summed per-pair
forces divided by `mass_A`. -/
theorem c1_gravity_force (W H : ℝ) :
    (∀ a b : Body, b.position ≠ a.position →
      |b.position.x - a.position.x| ≤ W / 2 → |b.position.y - a.position.y| ≤ H / 2 →
      pairAccel a b W H =
        ((a.mass * b.mass) / (b.position.distance a.position) ^ 2) •
          (b.position - a.position).normalize) ∧
    (∀ (self : Body) (bodies : List Body), othersOf self bodies ≠ [] →
      self.update_velocity bodies false W H =
        some { self with velocity := self.velocity +
          ((9.81 : ℝ) •
            (((othersOf self bodies).map (fun o => pairAccel self o W H)).foldl (· + ·) 0)) /
              self.mass }) := by
  constructor
  · intro a b _ hx hy
    have hdelta : (⟨b.position.x - a.position.x, b.position.y - a.position.y⟩ : Vec2) =
        b.position - a.position := by
      ext <;> simp
    unfold pairAccel
    simp only [wrapAxis_of_le hx, wrapAxis_of_le hy, hdelta]
    rw [Vec2.distance, sq]
  · intro self bodies h
    have hmap : (othersOf self bodies).map (fun o => pairAccel self o W H) ≠ [] := by
      simpa using h
    rw [update_velocity_gravity, reduce_add hmap]
    rfl

/-- C1 witness: for two bodies ten units apart in a 100-wide viewport the
per-pair increment has the claimed direction and magnitude, and the gravity
update applies the scaled summed force. -/
theorem c1_witness :
    pairAccel bodyP bodyQ 100 100 =
      ((bodyP.mass * bodyQ.mass) / (bodyQ.position.distance bodyP.position) ^ 2) •
        (bodyQ.position - bodyP.position).normalize ∧
    bodyP.update_velocity [bodyP, bodyQ] false 100 100 =
      some { bodyP with velocity := bodyP.velocity +
        ((9.81 : ℝ) •
          (((othersOf bodyP [bodyP, bodyQ]).map
              (fun o => pairAccel bodyP o 100 100)).foldl (· + ·) 0)) / bodyP.mass } :=
  ⟨(c1_gravity_force 100 100).1 bodyP bodyQ
      (by
        intro h
        have hx := congrArg Vec2.x h
        norm_num [bodyP, bodyQ] at hx)
      (by rw [show bodyQ.position.x - bodyP.position.x = 10 by norm_num [bodyP, bodyQ]];
          rw [abs_of_nonneg] <;> norm_num)
      (by rw [show bodyQ.position.y - bodyP.position.y = 0 by norm_num [bodyP, bodyQ]];
          rw [abs_of_nonneg] <;> norm_num),
   (c1_gravity_force 100 100).2 bodyP [bodyP, bodyQ] (by simp [othersOf, bodyP, bodyQ])⟩

/-- C1 counterexample: for unit masses at `(0,0)` and `(90,0)` in a
`100 x 100` viewport the code wraps the displacement to `(-10,0)`, so the
increment is `(-1/100, 0)`, while the claim's direction and magnitude give
`(1/8100, 0)` — the claim fails for pairs farther apart than half the
extent. -/
theorem c1_counterexample :
    bodyCB.position ≠ bodyCA.position ∧
    pairAccel bodyCA bodyCB 100 100 ≠
      ((bodyCA.mass * bodyCB.mass) / (bodyCB.position.distance bodyCA.position) ^ 2) •
        (bodyCB.position - bodyCA.position).normalize := by
  constructor
  · intro h
    have hx := congrArg Vec2.x h
    norm_num [bodyCA, bodyCB] at hx
  · have hlhs : pairAccel bodyCA bodyCB 100 100 = ⟨-(1 / 100), 0⟩ := by
      have hwx : wrapAxis ((90 : ℝ) - 0) 100 = -10 := by
        unfold wrapAxis signum
        rw [if_pos (by rw [show (90 : ℝ) - 0 = 90 by norm_num,
              abs_of_nonneg (by norm_num : (0 : ℝ) ≤ 90)]; norm_num),
          if_pos (by norm_num : (0 : ℝ) ≤ 90 - 0)]
        norm_num
      have hwy : wrapAxis ((0 : ℝ) - 0) 100 = 0 := by
        rw [show (0 : ℝ) - 0 = 0 by norm_num]
        exact wrapAxis_of_le (by rw [abs_zero]; norm_num)
      have hlen : Vec2.length ⟨-10, 0⟩ = 10 := by
        simp only [Vec2.length]
        rw [show (-10 : ℝ) * (-10 : ℝ) + (0 : ℝ) * (0 : ℝ) = 10 * 10 by norm_num]
        exact sqrt_eval (by norm_num) rfl
      unfold pairAccel
      simp only [bodyCA, bodyCB]
      rw [hwx, hwy]
      simp only [Vec2.normalize, hlen]
      ext
      · simp only [Vec2.smul_x]
        norm_num
      · simp only [Vec2.smul_y]
        norm_num
    have hd : Vec2.distance bodyCB.position bodyCA.position = 90 := by
      simp only [bodyCA, bodyCB, Vec2.distance, Vec2.length, Vec2.sub_x, Vec2.sub_y]
      rw [show ((90 : ℝ) - 0) * ((90 : ℝ) - 0) + ((0 : ℝ) - 0) * ((0 : ℝ) - 0) = 90 * 90
        by norm_num]
      exact sqrt_eval (by norm_num) rfl
    have hsub : bodyCB.position - bodyCA.position = ⟨90, 0⟩ := by
      ext <;> simp [bodyCA, bodyCB]
    have hlen90 : Vec2.length ⟨90, 0⟩ = 90 := by
      simp only [Vec2.length]
      rw [show (90 : ℝ) * (90 : ℝ) + (0 : ℝ) * (0 : ℝ) = 90 * 90 by norm_num]
      exact sqrt_eval (by norm_num) rfl
    have hrhs : ((bodyCA.mass * bodyCB.mass) / (bodyCB.position.distance bodyCA.position) ^ 2) •
        (bodyCB.position - bodyCA.position).normalize = ⟨1 / 8100, 0⟩ := by
      rw [hd, hsub]
      simp only [Vec2.normalize, hlen90, bodyCA, bodyCB]
      ext
      · simp only [Vec2.smul_x]
        norm_num
      · simp only [Vec2.smul_y]
        norm_num
    rw [hlhs, hrhs]
    intro h
    have hx := congrArg Vec2.x h
    norm_num at hx

theorem stepSim_running (s : SimState) (W H : ℝ) (nb : List Body)
    (hrun : s.running = true)
    (hnb : stepPhysics s.bodies s.elastic_collisions W H = some nb) :
    stepSim s W H = some { s with
      bodies := nb.map (fun b => b.update_position W H),
      trails := trailStep s.trails nb,
      running := if s.elastic_collisions then s.running
        else !has_collision (nb.map (fun b => b.update_position W H)) } := by
  unfold stepSim
  rw [hrun, hnb]
  rfl

theorem pairAccel_PQ : pairAccel bodyP bodyQ 100 100 = ⟨1 / 100, 0⟩ := by
  have hwx : wrapAxis (10 : ℝ) 100 = 10 :=
    wrapAxis_of_le (by rw [abs_of_nonneg (by norm_num : (0 : ℝ) ≤ 10)]; norm_num)
  have hwy : wrapAxis (0 : ℝ) 100 = 0 := wrapAxis_of_le (by rw [abs_zero]; norm_num)
  have hlen : Vec2.length ⟨10, 0⟩ = 10 := by
    simp only [Vec2.length]
    rw [show (10 : ℝ) * 10 + 0 * 0 = 10 * 10 by norm_num]
    exact sqrt_eval (by norm_num) rfl
  unfold pairAccel
  simp only [bodyP, bodyQ]
  rw [show (20 : ℝ) - 10 = 10 by norm_num, show (10 : ℝ) - 10 = 0 by norm_num, hwx, hwy]
  simp only [Vec2.normalize, hlen]
  ext
  · simp only [Vec2.smul_x]
    norm_num
  · simp only [Vec2.smul_y]
    norm_num

theorem pairAccel_QP : pairAccel bodyQ bodyP 100 100 = ⟨-(1 / 100), 0⟩ := by
  have hwx : wrapAxis (-10 : ℝ) 100 = -10 :=
    wrapAxis_of_le (by rw [abs_of_nonpos (by norm_num : (-10 : ℝ) ≤ 0)]; norm_num)
  have hwy : wrapAxis (0 : ℝ) 100 = 0 := wrapAxis_of_le (by rw [abs_zero]; norm_num)
  have hlen : Vec2.length ⟨-10, 0⟩ = 10 := by
    simp only [Vec2.length]
    rw [show (-10 : ℝ) * (-10 : ℝ) + (0 : ℝ) * 0 = 10 * 10 by norm_num]
    exact sqrt_eval (by norm_num) rfl
  unfold pairAccel
  simp only [bodyP, bodyQ]
  rw [show (10 : ℝ) - 20 = -10 by norm_num, show (10 : ℝ) - 10 = 0 by norm_num, hwx, hwy]
  simp only [Vec2.normalize, hlen]
  ext
  · simp only [Vec2.smul_x]
    norm_num
  · simp only [Vec2.smul_y]
    norm_num

theorem othersOf_P : othersOf bodyP [bodyP, bodyQ] = [bodyQ] := by
  simp [othersOf, bodyP, bodyQ]

theorem othersOf_Q : othersOf bodyQ [bodyP, bodyQ] = [bodyP] := by
  simp [othersOf, bodyP, bodyQ]

theorem uv_P : bodyP.update_velocity [bodyP, bodyQ] false 100 100 = some bodyPv := by
  rw [update_velocity_gravity, othersOf_P]
  simp only [List.map_cons, List.map_nil, reduce, List.foldl_nil, Option.map_some',
    pairAccel_PQ]
  refine congrArg some ?_
  ext <;> simp [bodyP, bodyPv, whiteCol] <;> norm_num

theorem uv_Q : bodyQ.update_velocity [bodyP, bodyQ] false 100 100 = some bodyQv := by
  rw [update_velocity_gravity, othersOf_Q]
  simp only [List.map_cons, List.map_nil, reduce, List.foldl_nil, Option.map_some',
    pairAccel_QP]
  refine congrArg some ?_
  ext <;> simp [bodyQ, bodyQv, whiteCol] <;> norm_num

theorem stepPhysics_PQ : stepPhysics [bodyP, bodyQ] false 100 100 = some [bodyPv, bodyQv] := by
  unfold stepPhysics
  simp [mapOption, uv_P, uv_Q]

theorem trailStep_ex : trailStep [] [bodyPv, bodyQv] =
    [Trail.ofBody bodyPv, Trail.ofBody bodyQv] := by
  unfold trailStep evictTrails
  simp [Trail.ofBody, bodyPv, bodyQv, whiteCol, show ¬((1 : ℝ) < 0.01) by norm_num]

theorem up_Pv : bodyPv.update_position 100 100 =
    ⟨0, whiteCol, ⟨10 + 981 / 10000, 10⟩, ⟨981 / 10000, 0⟩, 1⟩ := by
  rw [update_position_eq]
  simp only [bodyPv]
  rw [if_neg (by norm_num), if_neg (by norm_num), if_neg (by norm_num), if_neg (by norm_num)]
  ext <;> simp [whiteCol] <;> norm_num

theorem up_Qv : bodyQv.update_position 100 100 =
    ⟨1, whiteCol, ⟨20 - 981 / 10000, 10⟩, ⟨-(981 / 10000), 0⟩, 1⟩ := by
  rw [update_position_eq]
  simp only [bodyQv]
  rw [if_neg (by norm_num), if_neg (by norm_num), if_neg (by norm_num), if_neg (by norm_num)]
  ext <;> simp [whiteCol] <;> norm_num

/-- C3 (amended): in a running step the order is: compute all new velocities
from the snapshot, then update trails, then integrate positions, then
re-test collisions — so, contrary to the claim as stated, the trail sample
appended for a body records that body's position *before* that step's
position integration (the previous frame's position). -/
theorem c3_step_order (s : SimState) (W H : ℝ) (nb : List Body)
    (hrun : s.running = true)
    (hnb : stepPhysics s.bodies s.elastic_collisions W H = some nb) :
    stepSim s W H = some { s with
      bodies := nb.map (fun b => b.update_position W H),
      trails := trailStep s.trails nb,
      running := if s.elastic_collisions then s.running
        else !has_collision (nb.map (fun b => b.update_position W H)) } ∧
    trailStep s.trails nb = evictTrails (s.trails.map decayTrail ++ nb.map Trail.ofBody) ∧
    (nb.map Trail.ofBody).map Trail.position = nb.map Body.position := by
  refine ⟨stepSim_running s W H nb hrun hnb, rfl, ?_⟩
  simp [List.map_map, Trail.ofBody, Function.comp]

/-- C3 witness: the characterization of a step applied to a concrete running
two-body state. -/
theorem c3_witness :
    stepSim simC3 100 100 = some { simC3 with
      bodies := [bodyPv, bodyQv].map (fun b => b.update_position 100 100),
      trails := trailStep simC3.trails [bodyPv, bodyQv],
      running := if simC3.elastic_collisions then simC3.running
        else !has_collision ([bodyPv, bodyQv].map (fun b => b.update_position 100 100)) } ∧
    trailStep simC3.trails [bodyPv, bodyQv] =
      evictTrails (simC3.trails.map decayTrail ++ [bodyPv, bodyQv].map Trail.ofBody) ∧
    ([bodyPv, bodyQv].map Trail.ofBody).map Trail.position =
      [bodyPv, bodyQv].map Body.position :=
  c3_step_order simC3 100 100 [bodyPv, bodyQv] rfl stepPhysics_PQ

/-- C3 counterexample: after one step of a concrete two-body state the trail
sample for the first body sits at `(10,10)` while that body's post-step
position is `(10.0981, 10)` — the appended sample does not record the
position after the step's position integration, refuting the claimed
operation order. -/
theorem c3_counterexample :
    (stepSim simC3 100 100).map
        (fun s => (s.trails.map Trail.position, s.bodies.map Body.position)) =
      some ([⟨10, 10⟩, ⟨20, 10⟩],
        [⟨10 + 981 / 10000, 10⟩, ⟨20 - 981 / 10000, 10⟩]) ∧
    ((⟨10, 10⟩ : Vec2) ≠ ⟨10 + 981 / 10000, 10⟩) := by
  constructor
  · rw [stepSim_running simC3 100 100 [bodyPv, bodyQv] rfl stepPhysics_PQ]
    simp only [Option.map_some']
    rw [show simC3.trails = [] from rfl]
    rw [trailStep_ex]
    simp only [List.map_cons, List.map_nil, up_Pv, up_Qv]
    simp [Trail.ofBody, bodyPv, bodyQv]
  · intro h
    have hx := congrArg Vec2.x h
    norm_num at hx

/-- C7: in every running step the trail sequence becomes: every existing
sample's alpha multiplied by `0.995`, then one sample per body appended at
the back at the body's (full, equal to 1) opacity, then front eviction of
samples with alpha below `0.01`. -/
theorem c7_trail_update (s : SimState) (W H : ℝ) (nb : List Body)
    (hrun : s.running = true)
    (hnb : stepPhysics s.bodies s.elastic_collisions W H = some nb)
    (halpha : ∀ b ∈ nb, b.colour.a = 1) :
    (stepSim s W H).map SimState.trails =
      some ((s.trails.map decayTrail ++ nb.map Trail.ofBody).dropWhile
        (fun t => decide (t.colour.a < 0.01))) ∧
    (s.trails.map decayTrail).map (fun t => t.colour.a) =
      s.trails.map (fun t => t.colour.a * 0.995) ∧
    ∀ t ∈ nb.map Trail.ofBody, t.colour.a = 1 := by
  refine ⟨?_, ?_, ?_⟩
  · rw [stepSim_running s W H nb hrun hnb]
    rfl
  · simp [List.map_map, decayTrail, Function.comp]
  · intro t ht
    obtain ⟨b, hb, rfl⟩ := List.mem_map.mp ht
    simpa [Trail.ofBody] using halpha b hb

/-- C7 witness: the trail update of a step of a concrete running state. -/
theorem c7_witness :
    (stepSim simC3 100 100).map SimState.trails =
      some ((simC3.trails.map decayTrail ++ [bodyPv, bodyQv].map Trail.ofBody).dropWhile
        (fun t => decide (t.colour.a < 0.01))) ∧
    (simC3.trails.map decayTrail).map (fun t => t.colour.a) =
      simC3.trails.map (fun t => t.colour.a * 0.995) ∧
    ∀ t ∈ [bodyPv, bodyQv].map Trail.ofBody, t.colour.a = 1 :=
  c7_trail_update simC3 100 100 [bodyPv, bodyQv] rfl stepPhysics_PQ (by
    intro b hb
    rcases List.mem_cons.mp hb with rfl | hb'
    · rfl
    · rcases List.mem_cons.mp hb' with rfl | hb''
      · rfl
      · exact absurd hb'' (List.not_mem_nil b))

theorem frame_stopped (s : SimState) (inp : Inputs) (fresh : List Body) (W H : ℝ)
    (h1 : s.running = false) (h2 : inp.reset = false) (h3 : s.auto_restart = false) :
    frame s inp fresh W H = some { s with
      auto_restart := if inp.toggle_auto_restart then !s.auto_restart else s.auto_restart,
      elastic_collisions :=
        if inp.toggle_elastic then !s.elastic_collisions else s.elastic_collisions } := by
  unfold frame
  simp [stepSim, h1, h2, h3]

/-- C5: the two-state behaviour of the main loop: while stopped with no
reset and auto-restart off, bodies, trails and the stopped flag are all
unchanged (only the toggles move); in a running halting-mode step the
resulting `running` flag is exactly the negation of the collision test on
the resulting bodies; a stopped state with a reset event or auto-restart on
continues as a step of the state with `fresh` bodies, cleared trails and
`running = true`; and `running` can turn from false to true only through a
reset event or auto-restart. -/
theorem c5_state_machine (s : SimState) (inp : Inputs) (fresh : List Body) (W H : ℝ) :
    (s.running = false → inp.reset = false → s.auto_restart = false →
      frame s inp fresh W H = some { s with
        auto_restart := if inp.toggle_auto_restart then !s.auto_restart else s.auto_restart,
        elastic_collisions :=
          if inp.toggle_elastic then !s.elastic_collisions else s.elastic_collisions }) ∧
    (s.running = true → inp.reset = false →
      (if inp.toggle_elastic then !s.elastic_collisions else s.elastic_collisions) = false →
      ∀ s', frame s inp fresh W H = some s' → s'.running = !has_collision s'.bodies) ∧
    (s.running = false → (inp.reset = true ∨ s.auto_restart = true) →
      frame s inp fresh W H = stepSim
        { bodies := fresh
          trails := []
          running := true
          auto_restart := if inp.toggle_auto_restart then !s.auto_restart else s.auto_restart
          elastic_collisions :=
            if inp.toggle_elastic then !s.elastic_collisions else s.elastic_collisions } W H) ∧
    (s.running = false → ∀ s', frame s inp fresh W H = some s' → s'.running = true →
      inp.reset = true ∨ s.auto_restart = true) := by
  refine ⟨fun h1 h2 h3 => frame_stopped s inp fresh W H h1 h2 h3, ?_, ?_, ?_⟩
  · intro h1 h2 h3 s' hf
    unfold frame at hf
    rw [h1, h2] at hf
    simp only [Bool.not_true, Bool.false_and, Bool.or_false, Bool.false_eq_true, if_false] at hf
    rw [h3] at hf
    unfold stepSim at hf
    simp only [h1, if_true] at hf
    cases hph : stepPhysics s.bodies false W H with
    | none =>
      rw [hph] at hf
      exact Option.noConfusion hf
    | some nb =>
      rw [hph] at hf
      simp only [Option.some.injEq] at hf
      subst hf
      rfl
  · intro h1 h2
    unfold frame
    rw [h1]
    rcases h2 with h2 | h2 <;> rw [h2] <;> simp
  · intro h1 s' hf htrue
    by_cases hr : inp.reset = true
    · exact Or.inl hr
    · have hr' : inp.reset = false := by
        revert hr
        cases inp.reset <;> simp
      by_cases ha : s.auto_restart = true
      · exact Or.inr ha
      · have ha' : s.auto_restart = false := by
          revert ha
          cases s.auto_restart <;> simp
        rw [frame_stopped s inp fresh W H h1 hr' ha'] at hf
        simp only [Option.some.injEq] at hf
        subst hf
        simp [h1] at htrue

/-- C5 witness: a stopped state without reset or auto-restart is frozen, and
a stopped state with auto-restart on continues as a freshly reset step. -/
theorem c5_witness :
    frame simStop inpNone [] 100 100 = some { simStop with
      auto_restart := if inpNone.toggle_auto_restart then !simStop.auto_restart
        else simStop.auto_restart,
      elastic_collisions := if inpNone.toggle_elastic then !simStop.elastic_collisions
        else simStop.elastic_collisions } ∧
    frame simStopAR inpNone [] 100 100 = stepSim
      { bodies := []
        trails := []
        running := true
        auto_restart :=
          if inpNone.toggle_auto_restart then !simStopAR.auto_restart
          else simStopAR.auto_restart
        elastic_collisions :=
          if inpNone.toggle_elastic then !simStopAR.elastic_collisions
          else simStopAR.elastic_collisions } 100 100 :=
  ⟨(c5_state_machine simStop inpNone [] 100 100).1 rfl rfl rfl,
   (c5_state_machine simStopAR inpNone [] 100 100).2.2.1 rfl (Or.inr rfl)⟩

theorem pairwise_of_const_alpha :
    ∀ bs : List Body, (∀ b ∈ bs, b.colour.a = 1) →
      (bs.map Trail.ofBody).Pairwise (fun t t' => t.colour.a ≤ t'.colour.a) := by
  intro bs
  induction bs with
  | nil =>
    intro _
    exact List.Pairwise.nil
  | cons b rest ih =>
    intro hall
    rw [List.map_cons, List.pairwise_cons]
    constructor
    · intro t ht
      obtain ⟨b', hb', rfl⟩ := List.mem_map.mp ht
      simp only [Trail.ofBody]
      rw [hall b (List.mem_cons_self b rest), hall b' (List.mem_cons_of_mem b hb')]
    · exact ih (fun b' hb' => hall b' (List.mem_cons_of_mem b hb'))

theorem mem_dropWhile_alpha {l : List Trail}
    (hl : l.Pairwise (fun t t' => t.colour.a ≤ t'.colour.a)) :
    ∀ t ∈ l.dropWhile (fun t => decide (t.colour.a < 0.01)), (0.01 : ℝ) ≤ t.colour.a := by
  induction l with
  | nil =>
    intro t ht
    simp [List.dropWhile] at ht
  | cons x xs ih =>
    by_cases hx : x.colour.a < 0.01
    · rw [List.dropWhile_cons_of_pos (by simpa using hx)]
      exact ih (List.pairwise_cons.mp hl).2
    · rw [List.dropWhile_cons_of_neg (by simpa using hx)]
      intro t ht
      rcases List.mem_cons.mp ht with rfl | htx
      · exact not_lt.mp hx
      · exact le_trans (not_lt.mp hx) ((List.pairwise_cons.mp hl).1 t htx)

/-- C10: the trail update keeps alphas non-decreasing from front to back and
bounded by 1 (the invariant holding initially of the empty sequence), and
under that invariant the front-only eviction leaves no sample anywhere with
alpha below `0.01`. -/
theorem c10_trail_invariant (trails : List Trail) (bodies : List Body)
    (hsort : trails.Pairwise (fun t t' => t.colour.a ≤ t'.colour.a))
    (hbound : ∀ t ∈ trails, t.colour.a ≤ 1)
    (halpha : ∀ b ∈ bodies, b.colour.a = 1) :
    (trailStep trails bodies).Pairwise (fun t t' => t.colour.a ≤ t'.colour.a) ∧
    (∀ t ∈ trailStep trails bodies, t.colour.a ≤ 1) ∧
    (∀ t ∈ trailStep trails bodies, (0.01 : ℝ) ≤ t.colour.a) := by
  have hall : ((trails.map decayTrail) ++ bodies.map Trail.ofBody).Pairwise
      (fun t t' => t.colour.a ≤ t'.colour.a) := by
    rw [List.pairwise_append]
    refine ⟨?_, pairwise_of_const_alpha bodies halpha, ?_⟩
    · rw [List.pairwise_map]
      exact hsort.imp (fun h => by
        simp only [decayTrail]
        exact mul_le_mul_of_nonneg_right h (by norm_num))
    · intro t ht t' ht'
      obtain ⟨u, hu, rfl⟩ := List.mem_map.mp ht
      obtain ⟨b, hb, rfl⟩ := List.mem_map.mp ht'
      simp only [decayTrail, Trail.ofBody]
      rw [halpha b hb]
      have h2 := mul_le_mul_of_nonneg_right (hbound u hu) (by norm_num : (0 : ℝ) ≤ 0.995)
      linarith
  refine ⟨hall.sublist (List.dropWhile_sublist _), ?_, ?_⟩
  · intro t ht
    have hmem : t ∈ (trails.map decayTrail) ++ bodies.map Trail.ofBody :=
      (List.dropWhile_sublist _).subset ht
    rcases List.mem_append.mp hmem with hd | hs
    · obtain ⟨u, hu, rfl⟩ := List.mem_map.mp hd
      simp only [decayTrail]
      have h2 := mul_le_mul_of_nonneg_right (hbound u hu) (by norm_num : (0 : ℝ) ≤ 0.995)
      linarith
    · obtain ⟨b, hb, rfl⟩ := List.mem_map.mp hs
      simp only [Trail.ofBody]
      rw [halpha b hb]
  · exact mem_dropWhile_alpha hall

/-- C10 witness: the invariant and post-eviction bound hold for a step of
the empty trail sequence with one full-opacity body. -/
theorem c10_witness :
    (trailStep [] [bodyP]).Pairwise (fun t t' => t.colour.a ≤ t'.colour.a) ∧
    (∀ t ∈ trailStep [] [bodyP], t.colour.a ≤ 1) ∧
    (∀ t ∈ trailStep [] [bodyP], (0.01 : ℝ) ≤ t.colour.a) :=
  c10_trail_invariant [] [bodyP] List.Pairwise.nil (by simp) (by
    intro b hb
    rcases List.mem_cons.mp hb with rfl | h
    · rfl
    · exact absurd h (List.not_mem_nil b))

end ThreeBodies
